import Mathlib

/-!
Verification of `sentry/interfaces/http.py` (the HTTP request normalization
pipeline).  Python values are shallowly embedded as the inductive `PyVal`;
each function of the source file is translated to a Lean definition of the
same name.  External collaborators that are not part of the source file
(the JSON-schema validator, the `trim` family from `sentry.utils.safe`,
`prune_empty_keys`, the standard-library URL and query-string helpers and
the UTF-8 codec) are modelled from the specification; each such definition
carries a doc comment starting with `Modelled from the spec:`.
-/

/-- A Python runtime value, as far as the HTTP interface code observes it:
`None`, booleans, integers, text strings, byte strings, lists (which also
stand for tuples, indistinguishable at the observed call sites), and
dictionaries as ordered key/value pair lists. -/

inductive PyVal where
  | none
  | bool (b : Bool)
  | int (n : Int)
  | str (s : String)
  | bytes (b : List Nat)
  | list (xs : List PyVal)
  | dict (kvs : List (PyVal × PyVal))

/-- Python truthiness: `None`, `False`, `0`, empty strings and empty
containers are falsy, everything else is truthy. -/

def pyTruthy : PyVal → Bool
  | .none => false
  | .bool b => b
  | .int n => n != 0
  | .str s => !s.data.isEmpty
  | .bytes b => !b.isEmpty
  | .list xs => !xs.isEmpty
  | .dict kvs => !kvs.isEmpty

mutual
/-- Modelled from the spec: the approximate serialized size used by the
bounding layer (`sentry.utils.safe.trim` and friends, not under `src/`):
string length for text and bytes, a unit for scalars, and the sum of the
member sizes for containers. -/
def pySize : PyVal → Nat
  | .none => 1
  | .bool _ => 1
  | .int _ => 1
  | .str s => s.length
  | .bytes b => b.length
  | .list xs => pySizeL xs
  | .dict kvs => pySizeP kvs

/-- Size of a list of values (sum of member sizes). -/
def pySizeL : List PyVal → Nat
  | [] => 0
  | x :: xs => pySize x + pySizeL xs

/-- Size of a list of pairs (sum of member sizes). -/
def pySizeP : List (PyVal × PyVal) → Nat
  | [] => 0
  | (k, v) :: kvs => pySize k + pySize v + pySizeP kvs
end

/-- The Unicode replacement character U+FFFD. -/

def replacementChar : Char := '�'

/-- Modelled from the spec: UTF-8 encoding of one Unicode scalar value
(`str.encode('utf8', errors='replace')`; a Lean `Char` is always a scalar
value, so no replacement is ever necessary on this domain). -/

def utf8EncodeChar (c : Char) : List Nat :=
  let n := c.toNat
  if n < 0x80 then [n]
  else if n < 0x800 then [0xC0 + n / 64, 0x80 + n % 64]
  else if n < 0x10000 then [0xE0 + n / 4096, 0x80 + n / 64 % 64, 0x80 + n % 64]
  else [0xF0 + n / 262144, 0x80 + n / 4096 % 64, 0x80 + n / 64 % 64, 0x80 + n % 64]

/-- UTF-8 encoding of a text string as a list of byte values. -/

def utf8Encode (s : String) : List Nat :=
  (s.data.map utf8EncodeChar).flatten

/-- Whether a byte is a UTF-8 continuation byte (`10xxxxxx`). -/

def isCont (b : Nat) : Bool := decide (0x80 ≤ b) && decide (b < 0xC0)

/-- Modelled from the spec: one step of UTF-8 decoding with replacement
(`bytes.decode('utf8', errors='replace')`): given the lead byte and the
remaining bytes, produce the decoded character and the bytes not consumed.
A well-formed sequence decodes to its scalar value; an undecodable lead
byte becomes a replacement character and decoding resumes at the following
byte.  Overlong encodings, surrogates and out-of-range values are rejected,
as the Python codec does. -/

def decodeOne (b : Nat) (bs : List Nat) : Char × List Nat :=
  if b < 0x80 then (Char.ofNat b, bs)
  else if b < 0xC2 then (replacementChar, bs)
  else if b < 0xE0 then
    if decide (1 ≤ bs.length) && isCont (bs.headD 0) then
      (Char.ofNat ((b - 0xC0) * 64 + (bs.headD 0 - 0x80)), bs.tail)
    else (replacementChar, bs)
  else if b < 0xF0 then
    if decide (2 ≤ bs.length) && isCont (bs.headD 0) && isCont (bs.tail.headD 0)
        && (decide (b ≠ 0xE0) || decide (0xA0 ≤ bs.headD 0))
        && (decide (b ≠ 0xED) || decide (bs.headD 0 < 0xA0)) then
      (Char.ofNat ((b - 0xE0) * 4096 + (bs.headD 0 - 0x80) * 64 + (bs.tail.headD 0 - 0x80)),
        bs.tail.tail)
    else (replacementChar, bs)
  else if b < 0xF5 then
    if decide (3 ≤ bs.length) && isCont (bs.headD 0) && isCont (bs.tail.headD 0)
        && isCont (bs.tail.tail.headD 0)
        && (decide (b ≠ 0xF0) || decide (0x90 ≤ bs.headD 0))
        && (decide (b ≠ 0xF4) || decide (bs.headD 0 < 0x90)) then
      (Char.ofNat ((b - 0xF0) * 262144 + (bs.headD 0 - 0x80) * 4096
          + (bs.tail.headD 0 - 0x80) * 64 + (bs.tail.tail.headD 0 - 0x80)),
        bs.tail.tail.tail)
    else (replacementChar, bs)
  else (replacementChar, bs)

/-- Iterate `decodeOne` until the input is exhausted.  The first argument
is fuel bounding the number of steps; since every step consumes at least
the lead byte, fuel equal to the input length always suffices. -/

def utf8DecodeGo : Nat → List Nat → List Char
  | _, [] => []
  | 0, _ :: _ => []
  | fuel + 1, b :: bs => (decodeOne b bs).1 :: utf8DecodeGo fuel (decodeOne b bs).2

/-- Modelled from the spec: UTF-8 decoding with replacement, iterating
`decodeOne` until the input is exhausted. -/

def utf8DecodeReplaceAux (bs : List Nat) : List Char := utf8DecodeGo bs.length bs

/-- UTF-8 decoding with replacement, packaged as a string. -/

def utf8DecodeReplace (bs : List Nat) : String := String.mk (utf8DecodeReplaceAux bs)

/-- Re-encode a text value to UTF-8 and decode it back with replacement,
as `fix_broken_encoding` does for text input (lines 79-80 then 81-82). -/

def fixStr (s : String) : String := utf8DecodeReplace (utf8Encode s)

/-- `fix_broken_encoding` (http.py lines 74-83): text is re-encoded to
UTF-8 with replacement and decoded back with replacement; byte strings are
decoded with replacement; any other value is returned unchanged. -/

def fix_broken_encoding : PyVal → PyVal
  | .str s => .str (fixStr s)
  | .bytes b => .str (utf8DecodeReplace b)
  | v => v

/-- Python `str.strip()` (ASCII whitespace model). -/

def pyStrip (s : String) : String :=
  ⟨((s.data.dropWhile Char.isWhitespace).reverse.dropWhile Char.isWhitespace).reverse⟩

/-- Python `str.rstrip()` (ASCII whitespace model). -/

def rstrip (s : String) : String :=
  ⟨(s.data.reverse.dropWhile Char.isWhitespace).reverse⟩

/-- Python `str.upper()` (ASCII model). -/

def pyUpper (s : String) : String := ⟨s.data.map Char.toUpper⟩

/-- Python `str.lower()` (ASCII model). -/

def pyLower (s : String) : String := ⟨s.data.map Char.toLower⟩

/-- Helper for `titleCase`: the flag records whether the previous character
was alphabetic. -/

def titleCaseAux : Bool → List Char → List Char
  | _, [] => []
  | prevAlpha, c :: cs =>
    (if c.isAlpha then (if prevAlpha then c.toLower else c.toUpper) else c)
      :: titleCaseAux c.isAlpha cs

/-- Python `str.title()` (ASCII model): the first letter of every
alphabetic run is uppercased, the rest lowercased. -/

def titleCase (s : String) : String := ⟨titleCaseAux false s.data⟩

/-- JSON escaping of one character (quote and backslash). -/

def jsonEscapeChar (c : Char) : List Char :=
  if c = '"' then ['\\', '"'] else if c = '\\' then ['\\', '\\'] else [c]

/-- A JSON string literal. -/

def jsonQuote (s : String) : String := ⟨('"' :: (s.data.map jsonEscapeChar).flatten) ++ ['"']⟩

/-- JSON rendering of a dictionary key (Python coerces scalar keys to
strings; non-scalar keys raise and do not occur at the modelled call
sites). -/

def jsonKeyStr : PyVal → String
  | .str s => s
  | .int n => toString n
  | .bool b => if b then "true" else "false"
  | .none => "null"
  | _ => ""

mutual
/-- Modelled from the spec: `json.dumps` — JSON serialization of a value. -/
def jsonDumps : PyVal → String
  | .none => "null"
  | .bool b => if b then "true" else "false"
  | .int n => toString n
  | .str s => jsonQuote s
  | .bytes b => jsonQuote (utf8DecodeReplace b)
  | .list xs => "[" ++ String.intercalate ", " (jsonDumpsL xs) ++ "]"
  | .dict kvs => "\x7b" ++ String.intercalate ", " (jsonDumpsP kvs) ++ "\x7d"

/-- JSON rendering of the members of a list. -/
def jsonDumpsL : List PyVal → List String
  | [] => []
  | x :: xs => jsonDumps x :: jsonDumpsL xs

/-- JSON rendering of the members of a dictionary. -/
def jsonDumpsP : List (PyVal × PyVal) → List String
  | [] => []
  | (k, v) :: kvs => (jsonQuote (jsonKeyStr k) ++ ": " ++ jsonDumps v) :: jsonDumpsP kvs
end

/-- Python text coercion `six.text_type(value)` (scalars; structured
values do not occur at the modelled call sites and are approximated by
their JSON rendering). -/

def pyStr : PyVal → String
  | .str s => s
  | .int n => toString n
  | .bool b => if b then "True" else "False"
  | .none => "None"
  | .bytes b => utf8DecodeReplace b
  | .list xs => jsonDumps (.list xs)
  | .dict kvs => jsonDumps (.dict kvs)

/-- Modelled from the spec: `sentry.utils.strings.to_unicode` — decode a
value to text. -/

def to_unicode : PyVal → String
  | .str s => s
  | .bytes b => utf8DecodeReplace b
  | v => pyStr v

/-- `jsonify` (http.py lines 86-87): strings pass through unicode
decoding, every other value is JSON-serialized. -/

def jsonify (v : PyVal) : String :=
  match v with
  | .str s => to_unicode (.str s)
  | v => jsonDumps v

/-- Split a character list on every occurrence of `sep` (Python
`str.split(sep)`: the empty input yields one empty field). -/

def splitChar (sep : Char) : List Char → List (List Char)
  | [] => [[]]
  | c :: rest =>
    let r := splitChar sep rest
    if c == sep then [] :: r else (c :: r.headD []) :: r.tail

/-- Split a character list at the first occurrence of `sep`; `none` when
`sep` does not occur. -/

def splitFirst (sep : Char) : List Char → Option (List Char × List Char)
  | [] => Option.none
  | c :: rest =>
    if c == sep then some ([], rest)
    else (splitFirst sep rest).map fun p => (c :: p.1, p.2)

/-- Modelled from the spec: `parse_qsl(qs, keep_blank_values=True)` —
split `k=v&k2=v2` text into ordered pairs, splitting each field at its
first `=` and retaining blank values (a field without `=` yields an empty
value; empty fields are skipped). -/

def parse_qsl (s : String) : List (String × String) :=
  (splitChar '&' s.data).filterMap fun field =>
    match field with
    | [] => Option.none
    | _ =>
      match splitFirst '=' field with
      | some kv => some (⟨kv.1⟩, ⟨kv.2⟩)
      | Option.none => some (⟨field⟩, "")

/-- A character allowed in a URL scheme. -/

def scheme_char (c : Char) : Bool := c.isAlpha || c.isDigit || c == '+' || c == '-' || c == '.'

/-- Modelled from the spec: the standard-library `urlsplit` — split a URL
into (scheme, netloc, path, query, fragment) per the standard URL grammar:
a leading `name:` with scheme characters is the (lowercased) scheme, a
`//`-prefix delimits the netloc up to the next `/`, `?` or `#`, the part
after the first `#` is the fragment, and the part after the first `?` of
what remains is the query. -/

def urlsplit (url : String) : String × String × String × String × String :=
  let cs := url.data
  let schemeRest : List Char × List Char :=
    match splitFirst ':' cs with
    | some (pre, post) =>
      match pre with
      | c :: _ => if c.isAlpha && pre.all scheme_char then (pre.map Char.toLower, post) else ([], cs)
      | [] => ([], cs)
    | Option.none => ([], cs)
  let netlocRest : List Char × List Char :=
    match schemeRest.2 with
    | '/' :: '/' :: r =>
      let nl := r.takeWhile fun c => !(c == '/' || c == '?' || c == '#')
      (nl, r.drop nl.length)
    | r => ([], r)
  let beforeFragment : List Char × List Char :=
    match splitFirst '#' netlocRest.2 with
    | some (a, f) => (a, f)
    | Option.none => (netlocRest.2, [])
  let pathQuery : List Char × List Char :=
    match splitFirst '?' beforeFragment.1 with
    | some (a, q) => (a, q)
    | Option.none => (beforeFragment.1, [])
  (⟨schemeRest.1⟩, ⟨netlocRest.1⟩, ⟨pathQuery.1⟩, ⟨pathQuery.2⟩, ⟨beforeFragment.2⟩)

/-- Truthiness of an optional string (Python `None` and `''` are falsy). -/

def optSTruthy : Option String → Bool
  | some s => !s.data.isEmpty
  | Option.none => false

/-- Modelled from the spec: the standard-library `urlunsplit` — rejoin
(scheme, netloc, path, query, fragment) components, any of the first three
possibly `None` as at the call site (http.py line 229 passes `''` for
query and fragment).  With every component null the input path (`None`)
is returned unchanged, exactly as the Python function does. -/

def urlunsplit (scheme netloc path query fragment : Option String) : Option String :=
  let url := path
  let url : Option String :=
    if optSTruthy netloc
        || (optSTruthy url && (match (url.getD "").data with
              | '/' :: '/' :: _ => true
              | _ => false)) then
      let u := url.getD ""
      let u := if !u.data.isEmpty && u.data.headD ' ' != '/' then "/" ++ u else u
      some ("//" ++ netloc.getD "" ++ u)
    else url
  let url := if optSTruthy scheme then some (scheme.getD "" ++ ":" ++ url.getD "") else url
  let url := if optSTruthy query then some (url.getD "" ++ "?" ++ query.getD "") else url
  let url := if optSTruthy fragment then some (url.getD "" ++ "#" ++ fragment.getD "") else url
  url

/-- Whether a string ends with the horizontal-ellipsis glyph U+2026
(Python `url.endswith(u"…")`, http.py line 152). -/

def pyEndsWithEllipsis (s : String) : Bool := s.data.getLast? == some '…'

/-- The legacy-truncation repair of http.py lines 152-153 (also applied to
query strings at lines 163-164): a trailing U+2026 is replaced by three
ASCII dots (`url[:-1] + "..."`). -/

def repairEllipsis (s : String) : String :=
  if pyEndsWithEllipsis s then ⟨s.data.dropLast ++ ['.', '.', '.']⟩ else s

/-- Modelled from the spec: the configured maximum HTTP body size
(`settings.SENTRY_MAX_HTTP_BODY_SIZE`, central configuration; the spec
gives 2^17). -/

def SENTRY_MAX_HTTP_BODY_SIZE : Nat := 2 ^ 17

/-- Modelled from the spec: the default bound on the number of entries
kept by the pair/dict trimmers. -/

def SENTRY_MAX_DICTIONARY_ITEMS : Nat := 50

/-- Modelled from the spec: the default bound on the size of a single
trimmed value. -/

def SENTRY_MAX_VARIABLE_SIZE : Nat := 512

/-- A string prefix of at most `n` characters (`trim` on text). -/

def strTake (s : String) (n : Nat) : String := ⟨s.data.take n⟩

/-- Modelled from the spec: `trim` on a list — keep a prefix of the
members whose cumulative size fits the budget. -/

def trimListB (budget : Nat) : List PyVal → List PyVal
  | [] => []
  | x :: xs => if pySize x ≤ budget then x :: trimListB (budget - pySize x) xs else []

/-- Modelled from the spec: `trim` on pairs — keep a prefix of the pairs
whose cumulative size fits the budget. -/

def trimPairsB (budget : Nat) : List (PyVal × PyVal) → List (PyVal × PyVal)
  | [] => []
  | (k, v) :: kvs =>
    if pySize k + pySize v ≤ budget then (k, v) :: trimPairsB (budget - (pySize k + pySize v)) kvs
    else []

/-- Modelled from the spec: `sentry.utils.safe.trim(value, maxSize)` —
lossy, silent truncation of a value to a maximum approximate serialized
size: strings and bytes keep a prefix, containers keep a prefix of their
members, scalars pass through. -/

def trim (v : PyVal) (maxSize : Nat) : PyVal :=
  match v with
  | .str s => .str (strTake s maxSize)
  | .bytes b => .bytes (b.take maxSize)
  | .list xs => .list (trimListB maxSize xs)
  | .dict kvs => .dict (trimPairsB maxSize kvs)
  | v => v

/-- Modelled from the spec: `trim_pairs` at the headers call site — keep
the default number of pairs, each value trimmed to the default size. -/

def trim_pairs_h (xs : List (String × String)) : List (String × String) :=
  (xs.take SENTRY_MAX_DICTIONARY_ITEMS).map fun kv =>
    (kv.1, strTake kv.2 SENTRY_MAX_VARIABLE_SIZE)

/-- Modelled from the spec: `trim_pairs` at the cookies call site — keep
the default number of pairs, each value trimmed to the default size. -/

def trim_pairs_c (xs : List (String × PyVal)) : List (String × PyVal) :=
  (xs.take SENTRY_MAX_DICTIONARY_ITEMS).map fun kv =>
    (kv.1, trim kv.2 SENTRY_MAX_VARIABLE_SIZE)

/-- Modelled from the spec: `trim_dict` — keep the default number of
entries, each value trimmed to the default size. -/

def trim_dict (kvs : List (PyVal × PyVal)) : List (PyVal × PyVal) :=
  (kvs.take SENTRY_MAX_DICTIONARY_ITEMS).map fun kv =>
    (kv.1, trim kv.2 SENTRY_MAX_VARIABLE_SIZE)

/-- The raw input mapping handed to `Http.to_python` (a Python dict with
string keys). -/

abbrev PyDict := List (String × PyVal)

/-- `data.get(k)`: the first value stored under `k`, or `None`. -/

def dget (d : PyDict) (k : String) : PyVal := (List.lookup k d).getD .none

/-- `k in data`. -/

def dhas (d : PyDict) (k : String) : Bool := (List.lookup k d).isSome

/-- Embed an optional string as a Python value. -/

def optStr : Option String → PyVal
  | some s => .str s
  | Option.none => .none

/-- `http_method_re` (http.py line 32): anchored match of
`^[A-Z\-_]{3,32}$`.  As with Python `re.match`, the trailing `$` also
matches just before one final newline. -/

def isMethodChar (c : Char) : Bool := (decide ('A' ≤ c) && decide (c ≤ 'Z')) || c == '-' || c == '_'

/-- Whether `http_method_re.match(s)` succeeds. -/

def http_method_re_match (s : String) : Bool :=
  let t := if s.data.getLast? == some '\n' then (⟨s.data.dropLast⟩ : String) else s
  decide (3 ≤ t.length) && decide (t.length ≤ 32) && t.data.all isMethodChar

/-- Python text coercion applied to header values that are not strings
(http.py lines 55-56). -/

def pyTextify : PyVal → String
  | .str s => s
  | v => pyStr v

/-- Extract the text of a string value (`none` for any other shape). -/

def asStr : PyVal → Option String
  | .str s => some s
  | _ => Option.none

/-- `', '.join(v)` for a list-valued header (http.py lines 49-50); `none`
models the exception Python raises when a member is not a string. -/

def joinIfList : PyVal → Option PyVal
  | .list xs => (xs.mapM asStr).map fun ss => PyVal.str (String.intercalate ", " ss)
  | v => some v

/-- The loop of `format_headers` (http.py lines 42-57): list-valued
headers are comma-joined, a `cookie` header (case-insensitive, the last
one winning) is diverted to the cookie slot, all other headers are emitted
in order with title-cased names and text-coerced values.  `none` models
the exception Python raises on a non-string header name or a non-string
member of a list value. -/

def formatHeaderItems : List (PyVal × PyVal) → Option (List (String × String) × Option PyVal)
  | [] => some ([], Option.none)
  | (k, v) :: rest =>
    match joinIfList v, k with
    | some v2, PyVal.str ks =>
      match formatHeaderItems rest with
      | some pr =>
        if pyLower ks == "cookie" then some (pr.1, pr.2.orElse fun _ => some v2)
        else some ((titleCase ks, pyTextify v2) :: pr.1, pr.2)
      | Option.none => Option.none
    | _, _ => Option.none

/-- `format_headers` (http.py lines 35-58).  `Option.none` stands both for
the `()` returned on falsy input (whose unpacking at the call site raises)
and for an exception raised while iterating ill-shaped input; neither
occurs for schema-valid data. -/

def format_headers (value : PyVal) : Option (List (String × String) × Option PyVal) :=
  if !pyTruthy value then Option.none
  else match value with
    | .dict kvs => formatHeaderItems kvs
    | .list xs =>
      match xs.mapM fun t => match t with | .list [a, b] => some (a, b) | _ => Option.none with
      | some items => formatHeaderItems items
      | Option.none => Option.none
    | _ => Option.none

/-- `format_cookies` (http.py lines 61-71): falsy input yields the empty
result; a string is parsed as a query string with blank values kept; a
dict contributes its items; each pair becomes
`[fix_broken_encoding(k.strip()), fix_broken_encoding(v)]`.  `none`
models the exception Python raises on ill-shaped input (non-string key or
non-pair member), which does not occur for schema-valid data. -/

def format_cookies (value : PyVal) : Option (List (String × PyVal)) :=
  if !pyTruthy value then some []
  else match value with
    | .str s =>
      some ((parse_qsl s).map fun kv => (fixStr (pyStrip kv.1), fix_broken_encoding (.str kv.2)))
    | .dict kvs =>
      kvs.mapM fun kv =>
        match kv.1 with
        | .str k => some (fixStr (pyStrip k), fix_broken_encoding kv.2)
        | _ => Option.none
    | .list xs =>
      xs.mapM fun t =>
        match t with
        | .list [.str k, v] => some (fixStr (pyStrip k), fix_broken_encoding v)
        | _ => Option.none
    | _ => Option.none

/-- Modelled from the spec: `get_path(data, "headers", filter=True)` —
the headers value with `None` members of a list dropped. -/

def getPathFilter : PyVal → PyVal
  | .list xs => .list (xs.filter fun x => match x with | .none => false | _ => true)
  | v => v

/-- The numeric value of a decimal digit string. -/

def digitsVal (cs : List Char) : Nat :=
  cs.foldl (fun acc c => acc * 10 + (c.toNat - 48)) 0

/-- Modelled from the spec: syntactic dotted-quad IPv4 address (the form
exercised by this interface). -/

def isIpv4 (s : String) : Bool :=
  match splitChar '.' s.data with
  | [a, b, c, d] =>
    [a, b, c, d].all fun p =>
      !p.isEmpty && p.all Char.isDigit && decide (digitsVal p ≤ 255) && decide (p.length ≤ 3)
  | _ => false

/-- Modelled from the spec: `validate_ip(value, required=False)` — a falsy
value passes; otherwise the text form must be a syntactically valid IP
address. -/

def validate_ip_ok (v : PyVal) : Bool :=
  if !pyTruthy v then true else isIpv4 (pyStr v)

/-- `'REMOTE_ADDR' in env` / `env['REMOTE_ADDR']` on the embedded dict. -/

def envLookupRA : List (PyVal × PyVal) → Option PyVal
  | [] => Option.none
  | (k, v) :: rest =>
    match k with
    | .str s => if s = "REMOTE_ADDR" then some v else envLookupRA rest
    | _ => envLookupRA rest

/-- `del env['REMOTE_ADDR']` on the embedded dict. -/

def envDelRA (kvs : List (PyVal × PyVal)) : List (PyVal × PyVal) :=
  kvs.filter fun kv =>
    match kv.1 with
    | .str s => decide (s ≠ "REMOTE_ADDR")
    | _ => true

/-- A schema-shaped `method` value: absent/None or a string. -/

def methodOk : PyVal → Bool
  | .none => true
  | .str _ => true
  | _ => false

/-- A schema-shaped header value: a string or a list of strings. -/

def headerValOk : PyVal → Bool
  | .str _ => true
  | .list xs => xs.all fun x => match x with | .str _ => true | _ => false
  | _ => false

/-- A schema-shaped `headers` value: absent/None, a dict with string keys
and header-shaped values, or a list of two-member pairs of the same
shape. -/

def headersOk : PyVal → Bool
  | .none => true
  | .dict kvs => kvs.all fun kv => match kv.1 with | .str _ => headerValOk kv.2 | _ => false
  | .list xs => xs.all fun x => match x with | .list [.str _, v] => headerValOk v | _ => false
  | _ => false

/-- A schema-shaped `cookies` value: absent/None, a string, a dict with
string keys, or a list of two-member pairs with string keys. -/

def cookiesOk : PyVal → Bool
  | .none => true
  | .str _ => true
  | .dict kvs => kvs.all fun kv => match kv.1 with | .str _ => true | _ => false
  | .list xs => xs.all fun x => match x with | .list [.str _, _] => true | _ => false
  | _ => false

/-- A schema-shaped `env` field: absent, or a dict. -/

def envFieldOk (data : PyDict) : Bool :=
  if dhas data "env" then (match dget data "env" with | .dict _ => true | _ => false) else true

/-- Modelled from the spec: `validate_and_default_interface` — opaque
structural pre-validation of the raw mapping against the interface
schema; it enforces exactly the shapes the assembler relies on. -/

def schemaValid (data : PyDict) : Bool :=
  methodOk (dget data "method") && headersOk (dget data "headers")
    && cookiesOk (dget data "cookies") && envFieldOk data

/-- The method check of http.py lines 134-142: a truthy `method` is
uppercased and must be `GET`/`POST` or match `http_method_re`; otherwise
`InterfaceValidationError` is raised. -/

def parseMethod (data : PyDict) : Except String (Option String) :=
  let m := dget data "method"
  if pyTruthy m then
    match m with
    | .str s =>
      let mu := pyUpper s
      if mu == "GET" || mu == "POST" then Except.ok (some mu)
      else if http_method_re_match mu then Except.ok (some mu)
      else Except.error "Invalid value for 'method'"
    | _ => Except.error "TypeError" -- Python: AttributeError on .upper(); precluded by the schema
  else Except.ok Option.none

/-- Whether the method value makes http.py lines 134-142 reject: truthy,
and its uppercased form is neither `GET` nor `POST` and fails the regex. -/

def methodRejects : PyVal → Bool
  | .str s =>
    pyTruthy (.str s)
      && (let mu := pyUpper s
          !(mu == "GET" || mu == "POST") && !http_method_re_match mu)
  | _ => false

/-- Whether a value is a Python mapping (`isinstance(body, dict)`). -/

def isDictV : PyVal → Bool
  | .dict _ => true
  | _ => false

/-- The URL branch of http.py lines 144-156: a truthy `url` is decoded to
text, repaired of a trailing ellipsis, and split; otherwise all five
components are null. -/

def resolveUrl (data : PyDict) : Option (String × String × String × String × String) :=
  if pyTruthy (dget data "url") then
    some (urlsplit (repairEllipsis (to_unicode (dget data "url"))))
  else Option.none

/-- The query-string branch of http.py lines 158-180 before trimming: an
explicit truthy `query_string` wins over the URL query component; a string
is stripped of one leading `?`, repaired of a trailing ellipsis and parsed
into pairs; a dict contributes its items; a list keeps only its two-member
pairs; any other truthy shape and the falsy case yield the empty list. -/

def resolveQS (data : PyDict) (query_bit : Option String) : List (PyVal × PyVal) :=
  let q := dget data "query_string"
  let qs := if pyTruthy q then q else optStr query_bit
  if pyTruthy qs then
    match qs with
    | .str s =>
      let s1 := if s.data.headD ' ' == '?' then (⟨s.data.tail⟩ : String) else s
      let s2 := repairEllipsis s1
      (parse_qsl s2).map fun kv =>
        (PyVal.str (to_unicode (.str kv.1)), PyVal.str (jsonify (.str kv.2)))
    | .dict kvs => kvs.map fun kv => (PyVal.str (to_unicode kv.1), PyVal.str (jsonify kv.2))
    | .list xs =>
      xs.filterMap fun t =>
        match t with
        | .list [a, b] => some (a, b)
        | _ => Option.none
    | _ => []
  else []

/-- The fragment resolution of http.py line 182: an explicit truthy
`fragment` wins over the URL fragment component. -/

def resolveFragment (data : PyDict) (fragment_bit : Option String) : PyVal :=
  let f := dget data "fragment"
  if pyTruthy f then f else optStr fragment_bit

/-- The headers branch of http.py lines 187-192: truthy `headers` are
formatted (with the cookie header extracted); otherwise both results are
empty. -/

def resolveHeaders (data : PyDict) : List (String × String) × Option PyVal :=
  if pyTruthy (dget data "headers") then
    match format_headers (getPathFilter (dget data "headers")) with
    | some pr => pr
    | Option.none => ([], Option.none) -- Python raises here; precluded by the schema
  else ([], Option.none)

/-- The cookie resolution of http.py lines 184-190 and 225: explicit
cookies win; otherwise a truthy extracted cookie header is used; the
result is formatted into pairs. -/

def resolveCookies (data : PyDict) (cookie_header : Option PyVal) : List (String × PyVal) :=
  let c0 := dget data "cookies"
  let ch := cookie_header.getD .none
  let c1 := if !pyTruthy c0 && pyTruthy ch then ch else c0
  (format_cookies c1).getD [] -- the none case is a Python exception; precluded by the schema

/-- The env handling of http.py lines 216-222: a present `REMOTE_ADDR`
that fails IP validation is deleted. -/

def resolveEnv (data : PyDict) : List (PyVal × PyVal) :=
  let env := if dhas data "env" then dget data "env" else .dict []
  match env with
  | .dict kvs =>
    (match envLookupRA kvs with
     | some v => if validate_ip_ok v then kvs else envDelRA kvs
     | Option.none => kvs)
  | _ => [] -- Python raises here (env not a mapping); precluded by the schema

/-- The Content-Type extraction of http.py lines 199-203: the first
`Content-Type` header, stripped of `;`-parameters and trailing
whitespace. -/

def contentTypeOf (headers : List (String × String)) : Option String :=
  (headers.find? fun kv => kv.1 == "Content-Type").map fun kv =>
    rstrip ⟨kv.2.data.takeWhile (· != ';')⟩

/-- The body bound of http.py lines 213-214: a truthy body is trimmed to
the configured maximum size. -/

def trimBody (b : PyVal) : PyVal :=
  if pyTruthy b then trim b SENTRY_MAX_HTTP_BODY_SIZE else b

/-- The canonical record assembled by `Http.to_python` (the `kwargs` of
http.py lines 132-232). -/

structure Http where
  method : Option String
  url : Option String
  query_string : List (PyVal × PyVal)
  fragment : PyVal
  cookies : List (String × PyVal)
  headers : List (String × String)
  data : PyVal
  env : List (PyVal × PyVal)
  inferred_content_type : PyVal

/-- The record construction of http.py lines 144-232, given the parsed
method and the external heuristic body decoder `hdec` (an opaque
collaborator: `heuristic_decode(body, content_type)` returning the decoded
body and the inferred content type). -/

def assembleOk (hdec : PyVal → PyVal → PyVal × PyVal) (data : PyDict) (method : Option String) :
    Http :=
  let comps := resolveUrl data
  let query_bit := comps.map fun c => c.2.2.2.1
  let fragment_bit := comps.map fun c => c.2.2.2.2
  let qs := resolveQS data query_bit
  let fragment := resolveFragment data fragment_bit
  let hdrs := resolveHeaders data
  let cookies := resolveCookies data hdrs.2
  let body0 := dget data "data"
  let content_type := contentTypeOf hdrs.1
  let inferred0 : PyVal :=
    if dhas data "inferred_content_type" then dget data "inferred_content_type"
    else optStr content_type
  let decoded : PyVal × PyVal :=
    if !dhas data "inferred_content_type" && !isDictV body0 then
      hdec body0 (optStr content_type)
    else (body0, inferred0)
  { method := method
    url := urlunsplit (comps.map fun c => c.1) (comps.map fun c => c.2.1)
      (comps.map fun c => c.2.2.1) (some "") (some "")
    query_string := trimPairsB 4096 qs
    fragment := trim fragment 1024
    cookies := trim_pairs_c cookies
    headers := trim_pairs_h hdrs.1
    data := fix_broken_encoding (trimBody decoded.1)
    env := trim_dict (resolveEnv data)
    inferred_content_type := decoded.2 }

/-- `Http.to_python` (http.py lines 126-232): schema validation failure
and an invalid `method` raise `InterfaceValidationError`; otherwise the
canonical record is assembled. -/

def Http.to_python (hdec : PyVal → PyVal → PyVal × PyVal) (data : PyDict) : Except String Http :=
  if schemaValid data = false then Except.error "Invalid interface data"
  else
    match parseMethod data with
    | Except.error e => Except.error e
    | Except.ok m => Except.ok (assembleOk hdec data m)

/-- Whether a value is absent or an empty string/collection. -/

def isEmptyVal : PyVal → Bool
  | .none => true
  | .str s => s.data.isEmpty
  | .bytes b => b.isEmpty
  | .list xs => xs.isEmpty
  | .dict kvs => kvs.isEmpty
  | _ => false

/-- Modelled from the spec: `prune_empty_keys` — entries whose value is
absent or an empty string/collection are dropped (numeric zero and
`False` are kept). -/

def prune_empty_keys (d : PyDict) : PyDict := d.filter fun kv => !isEmptyVal kv.2

/-- Python `value or None` (http.py lines 238-243). -/

def orNone (v : PyVal) : PyVal := if pyTruthy v then v else .none

/-- `Http.to_json` (http.py lines 234-245): the record as a key/value
mapping with empty values pruned. -/

def Http.to_json (r : Http) : PyDict :=
  prune_empty_keys [
    ("method", optStr r.method),
    ("url", optStr r.url),
    ("query_string", orNone (.list (r.query_string.map fun kv => .list [kv.1, kv.2]))),
    ("fragment", orNone r.fragment),
    ("cookies", orNone (.list (r.cookies.map fun kv => .list [.str kv.1, kv.2]))),
    ("headers", orNone (.list (r.headers.map fun kv => .list [.str kv.1, .str kv.2]))),
    ("data", r.data),
    ("env", orNone (.dict r.env)),
    ("inferred_content_type", r.inferred_content_type)]

/-! ### Helper lemmas for the bounding layer -/

/-- A stand-in heuristic decoder for concrete examples: it returns the
body unchanged and reports the passed content type as inferred. -/

def hdecId : PyVal → PyVal → PyVal × PyVal := fun b c => (b, c)

instance : Inhabited Http :=
  ⟨⟨Option.none, Option.none, [], .none, [], [], .none, [], .none⟩⟩

/-- A concrete raw input exercising the URL, query-string and body
paths. -/

def c1data : PyDict := [("url", PyVal.str "http://h/p?a=1#frag"), ("data", PyVal.str "hello")]

/-- The record assembled from `c1data`. -/

def c1rec : Http := ((Http.to_python hdecId c1data).toOption).getD default

/-- A heuristic decoder that rewrites everything, for exercising
sensitivity to the decoder. -/

def hdecA : PyVal → PyVal → PyVal × PyVal := fun _ _ => (PyVal.str "decoded", PyVal.str "text/json")

/-- A second, different heuristic decoder. -/

def hdecB : PyVal → PyVal → PyVal × PyVal := fun _ _ => (PyVal.none, PyVal.none)

/-- A raw input that already carries an inferred content type. -/

def c5data : PyDict := [("inferred_content_type", PyVal.str "text/plain"), ("data", PyVal.str "raw")]

/-- The record assembled from `c5data`. -/

def c5rec : Http := ((Http.to_python hdecA c5data).toOption).getD default

/-- The record assembled from the empty raw input. -/

def c7rec : Http := ((Http.to_python hdecId []).toOption).getD default

/-! ### Theorems -/

theorem decodeOne_snd_length (b : Nat) (bs : List Nat) :
    (decodeOne b bs).2.length ≤ bs.length := by
  have h1 : bs.tail.length ≤ bs.length := by
    cases bs <;> simp
  have h2 : bs.tail.tail.length ≤ bs.length := by
    cases bs with
    | nil => simp
    | cons x xs => cases xs <;> simp [Nat.le_succ_of_le]
  have h3 : bs.tail.tail.tail.length ≤ bs.length := by
    cases bs with
    | nil => simp
    | cons x xs =>
      cases xs with
      | nil => simp
      | cons y ys =>
        cases ys with
        | nil => simp
        | cons z zs => simp only [List.tail_cons, List.length_cons]; omega
  simp only [decodeOne]
  split_ifs <;> simp_all

theorem utf8DecodeGo_irrel (fuel : Nat) : ∀ (fuel2 : Nat) (bs : List Nat),
    bs.length ≤ fuel → bs.length ≤ fuel2 → utf8DecodeGo fuel bs = utf8DecodeGo fuel2 bs := by
  induction fuel with
  | zero =>
    intro fuel2 bs h _
    have hb : bs = [] := List.length_eq_zero.mp (Nat.le_zero.mp h)
    subst hb
    cases fuel2 <;> rfl
  | succ f ih =>
    intro fuel2 bs h h2
    cases bs with
    | nil => cases fuel2 <;> rfl
    | cons b bs =>
      cases fuel2 with
      | zero => simp at h2
      | succ f2 =>
        simp only [utf8DecodeGo]
        have hlen := decodeOne_snd_length b bs
        have hf : (decodeOne b bs).2.length ≤ f := by
          simp only [List.length_cons] at h
          omega
        have hf2 : (decodeOne b bs).2.length ≤ f2 := by
          simp only [List.length_cons] at h2
          omega
        rw [ih f2 (decodeOne b bs).2 hf hf2]

theorem charValid (c : Char) : c.toNat < 0xD800 ∨ (0xDFFF < c.toNat ∧ c.toNat < 0x110000) :=
  c.valid

theorem decodeOne_ascii (c : Char) (rest : List Nat) (h1 : c.toNat < 0x80) :
    decodeOne c.toNat rest = (c, rest) := by
  simp only [decodeOne, if_pos h1, Char.ofNat_toNat]

theorem decodeOne_two (c : Char) (rest : List Nat) (h1 : ¬ c.toNat < 0x80)
    (h2 : c.toNat < 0x800) :
    decodeOne (0xC0 + c.toNat / 64) ((0x80 + c.toNat % 64) :: rest) = (c, rest) := by
  simp only [decodeOne, List.length_cons, List.headD_cons, List.tail_cons, isCont]
  rw [if_neg (by omega), if_neg (by omega), if_pos (by omega : 0xC0 + c.toNat / 64 < 0xE0),
    if_pos (by simp only [Bool.and_eq_true, decide_eq_true_eq]; omega)]
  rw [show (0xC0 + c.toNat / 64 - 0xC0) * 64 + (0x80 + c.toNat % 64 - 0x80) = c.toNat by omega,
    Char.ofNat_toNat]

theorem decodeOne_three (c : Char) (rest : List Nat) (h2 : ¬ c.toNat < 0x800)
    (h3 : c.toNat < 0x10000) :
    decodeOne (0xE0 + c.toNat / 4096)
      ((0x80 + c.toNat / 64 % 64) :: (0x80 + c.toNat % 64) :: rest) = (c, rest) := by
  have hv := charValid c
  simp only [decodeOne, List.length_cons, List.headD_cons, List.tail_cons, isCont]
  rw [if_neg (by omega), if_neg (by omega), if_neg (by omega),
    if_pos (by omega : 0xE0 + c.toNat / 4096 < 0xF0),
    if_pos (by simp only [Bool.and_eq_true, Bool.or_eq_true, decide_eq_true_eq]; omega)]
  rw [show (0xE0 + c.toNat / 4096 - 0xE0) * 4096 + (0x80 + c.toNat / 64 % 64 - 0x80) * 64
      + (0x80 + c.toNat % 64 - 0x80) = c.toNat by omega, Char.ofNat_toNat]

theorem decodeOne_four (c : Char) (rest : List Nat) (h3 : ¬ c.toNat < 0x10000) :
    decodeOne (0xF0 + c.toNat / 262144)
      ((0x80 + c.toNat / 4096 % 64) :: (0x80 + c.toNat / 64 % 64) :: (0x80 + c.toNat % 64) :: rest)
      = (c, rest) := by
  have hv := charValid c
  simp only [decodeOne, List.length_cons, List.headD_cons, List.tail_cons, isCont]
  rw [if_neg (by omega), if_neg (by omega), if_neg (by omega), if_neg (by omega),
    if_pos (by omega : 0xF0 + c.toNat / 262144 < 0xF5),
    if_pos (by simp only [Bool.and_eq_true, Bool.or_eq_true, decide_eq_true_eq]; omega)]
  rw [show (0xF0 + c.toNat / 262144 - 0xF0) * 262144 + (0x80 + c.toNat / 4096 % 64 - 0x80) * 4096
      + (0x80 + c.toNat / 64 % 64 - 0x80) * 64 + (0x80 + c.toNat % 64 - 0x80) = c.toNat by omega,
    Char.ofNat_toNat]

/-- Decoding inverts encoding on any single scalar value, whatever bytes follow. -/
theorem utf8_decode_encode_char (c : Char) (rest : List Nat) :
    utf8DecodeReplaceAux (utf8EncodeChar c ++ rest) = c :: utf8DecodeReplaceAux rest := by
  by_cases h1 : c.toNat < 0x80
  · have he : utf8EncodeChar c = [c.toNat] := by
      simp only [utf8EncodeChar, if_pos h1]
    rw [he, List.cons_append, List.nil_append]
    simp only [utf8DecodeReplaceAux, List.length_cons, utf8DecodeGo]
    rw [decodeOne_ascii c rest h1]
  · by_cases h2 : c.toNat < 0x800
    · have he : utf8EncodeChar c = [0xC0 + c.toNat / 64, 0x80 + c.toNat % 64] := by
        simp only [utf8EncodeChar, if_neg h1, if_pos h2]
      rw [he, List.cons_append, List.cons_append, List.nil_append]
      simp only [utf8DecodeReplaceAux, List.length_cons, utf8DecodeGo]
      rw [decodeOne_two c rest h1 h2]
      rw [utf8DecodeGo_irrel (rest.length + 1) rest.length rest (by omega) (by omega)]
    · by_cases h3 : c.toNat < 0x10000
      · have he : utf8EncodeChar c =
            [0xE0 + c.toNat / 4096, 0x80 + c.toNat / 64 % 64, 0x80 + c.toNat % 64] := by
          simp only [utf8EncodeChar, if_neg h1, if_neg h2, if_pos h3]
        rw [he, List.cons_append, List.cons_append, List.cons_append, List.nil_append]
        simp only [utf8DecodeReplaceAux, List.length_cons, utf8DecodeGo]
        rw [decodeOne_three c rest h2 h3]
        rw [utf8DecodeGo_irrel (rest.length + 1 + 1) rest.length rest (by omega) (by omega)]
      · have he : utf8EncodeChar c = [0xF0 + c.toNat / 262144, 0x80 + c.toNat / 4096 % 64,
            0x80 + c.toNat / 64 % 64, 0x80 + c.toNat % 64] := by
          simp only [utf8EncodeChar, if_neg h1, if_neg h2, if_neg h3]
        rw [he, List.cons_append, List.cons_append, List.cons_append, List.cons_append,
          List.nil_append]
        simp only [utf8DecodeReplaceAux, List.length_cons, utf8DecodeGo]
        rw [decodeOne_four c rest h3]
        rw [utf8DecodeGo_irrel (rest.length + 1 + 1 + 1) rest.length rest (by omega) (by omega)]

/-- Decoding inverts encoding on any list of scalar values. -/
theorem utf8_decode_encode (cs : List Char) :
    utf8DecodeReplaceAux ((cs.map utf8EncodeChar).flatten) = cs := by
  induction cs with
  | nil => rfl
  | cons c cs ih =>
    simp only [List.map_cons, List.flatten_cons]
    rw [utf8_decode_encode_char, ih]

theorem utf8DecodeGo_length_le (fuel : Nat) : ∀ bs : List Nat,
    (utf8DecodeGo fuel bs).length ≤ bs.length := by
  induction fuel with
  | zero => intro bs; cases bs <;> simp [utf8DecodeGo]
  | succ f ih =>
    intro bs
    cases bs with
    | nil => simp [utf8DecodeGo]
    | cons b bs =>
      simp only [utf8DecodeGo, List.length_cons]
      have h1 := ih (decodeOne b bs).2
      have h2 := decodeOne_snd_length b bs
      omega

theorem utf8DecodeReplace_length_le (bs : List Nat) :
    (utf8DecodeReplace bs).length ≤ bs.length :=
  utf8DecodeGo_length_le bs.length bs

theorem fixStr_eq (s : String) : fixStr s = s := by
  have h : utf8DecodeReplaceAux ((s.data.map utf8EncodeChar).flatten) = s.data :=
    utf8_decode_encode s.data
  simp only [fixStr, utf8DecodeReplace, utf8Encode, h]

theorem pySizeP_trimPairsB (kvs : List (PyVal × PyVal)) :
    ∀ budget, pySizeP (trimPairsB budget kvs) ≤ budget := by
  induction kvs with
  | nil => intro b; simp [trimPairsB, pySizeP]
  | cons kv rest ih =>
    intro b
    obtain ⟨k, v⟩ := kv
    simp only [trimPairsB]
    split_ifs with h
    · have := ih (b - (pySize k + pySize v))
      simp only [pySizeP]
      omega
    · simp [pySizeP]

theorem pySizeL_trimListB (xs : List PyVal) :
    ∀ budget, pySizeL (trimListB budget xs) ≤ budget := by
  induction xs with
  | nil => intro b; simp [trimListB, pySizeL]
  | cons x rest ih =>
    intro b
    simp only [trimListB]
    split_ifs with h
    · have := ih (b - pySize x)
      simp only [pySizeL]
      omega
    · simp [pySizeL]

theorem pyTruthy_false_size (v : PyVal) (h : pyTruthy v = false) : pySize v ≤ 1 := by
  cases v with
  | str s =>
    simp only [pyTruthy, Bool.not_eq_false'] at h
    have : s.data = [] := List.isEmpty_iff.mp h
    simp [pySize, String.length, this]
  | bytes b =>
    simp only [pyTruthy, Bool.not_eq_false'] at h
    simp [pySize, List.isEmpty_iff.mp h]
  | list xs =>
    simp only [pyTruthy, Bool.not_eq_false'] at h
    simp [pySize, List.isEmpty_iff.mp h, pySizeL]
  | dict kvs =>
    simp only [pyTruthy, Bool.not_eq_false'] at h
    simp [pySize, List.isEmpty_iff.mp h, pySizeP]
  | none => simp [pySize]
  | bool b => simp [pySize]
  | int n => simp [pySize]

theorem pySize_trim (v : PyVal) (n : Nat) (h : 1 ≤ n) : pySize (trim v n) ≤ n := by
  cases v with
  | str s =>
    simp only [trim, strTake, pySize, String.length]
    simp [List.length_take]
  | bytes b => simp [trim, pySize, List.length_take]
  | list xs => simpa [trim, pySize] using pySizeL_trimListB xs n
  | dict kvs => simpa [trim, pySize] using pySizeP_trimPairsB kvs n
  | none => simpa [trim, pySize] using h
  | bool b => simpa [trim, pySize] using h
  | int i => simpa [trim, pySize] using h

theorem pySize_fix (v : PyVal) : pySize (fix_broken_encoding v) ≤ pySize v := by
  cases v with
  | str s => simp [fix_broken_encoding, fixStr_eq]
  | bytes b => exact utf8DecodeReplace_length_le b
  | none => simp [fix_broken_encoding]
  | bool b => simp [fix_broken_encoding]
  | int n => simp [fix_broken_encoding]
  | list xs => simp [fix_broken_encoding]
  | dict kvs => simp [fix_broken_encoding]

theorem pySize_body_bound (b : PyVal) :
    pySize (fix_broken_encoding (trimBody b)) ≤ SENTRY_MAX_HTTP_BODY_SIZE := by
  unfold trimBody
  split_ifs with h
  · calc pySize (fix_broken_encoding (trim b SENTRY_MAX_HTTP_BODY_SIZE))
        ≤ pySize (trim b SENTRY_MAX_HTTP_BODY_SIZE) := pySize_fix _
      _ ≤ SENTRY_MAX_HTTP_BODY_SIZE := pySize_trim _ _ (by norm_num [SENTRY_MAX_HTTP_BODY_SIZE])
  · calc pySize (fix_broken_encoding b) ≤ pySize b := pySize_fix _
      _ ≤ 1 := pyTruthy_false_size _ (by simpa using h)
      _ ≤ SENTRY_MAX_HTTP_BODY_SIZE := by norm_num [SENTRY_MAX_HTTP_BODY_SIZE]

theorem trim_pairs_h_bounds (xs : List (String × String)) :
    (trim_pairs_h xs).length ≤ SENTRY_MAX_DICTIONARY_ITEMS
      ∧ ∀ kv ∈ trim_pairs_h xs, kv.2.length ≤ SENTRY_MAX_VARIABLE_SIZE := by
  constructor
  · simp [trim_pairs_h, List.length_take]
  · intro kv hkv
    simp only [trim_pairs_h, List.mem_map] at hkv
    obtain ⟨kv0, _, rfl⟩ := hkv
    have h2 : (kv0.2.data.take SENTRY_MAX_VARIABLE_SIZE).length ≤ SENTRY_MAX_VARIABLE_SIZE := by
      rw [List.length_take]
      omega
    exact h2

theorem trim_pairs_c_bounds (xs : List (String × PyVal)) :
    (trim_pairs_c xs).length ≤ SENTRY_MAX_DICTIONARY_ITEMS
      ∧ ∀ kv ∈ trim_pairs_c xs, pySize kv.2 ≤ SENTRY_MAX_VARIABLE_SIZE := by
  constructor
  · simp [trim_pairs_c, List.length_take]
  · intro kv hkv
    simp only [trim_pairs_c, List.mem_map] at hkv
    obtain ⟨kv0, _, rfl⟩ := hkv
    exact pySize_trim _ _ (by norm_num [SENTRY_MAX_VARIABLE_SIZE])

theorem trim_dict_bounds (kvs : List (PyVal × PyVal)) :
    (trim_dict kvs).length ≤ SENTRY_MAX_DICTIONARY_ITEMS
      ∧ ∀ kv ∈ trim_dict kvs, pySize kv.2 ≤ SENTRY_MAX_VARIABLE_SIZE := by
  constructor
  · simp [trim_dict, List.length_take]
  · intro kv hkv
    simp only [trim_dict, List.mem_map] at hkv
    obtain ⟨kv0, _, rfl⟩ := hkv
    exact pySize_trim _ _ (by norm_num [SENTRY_MAX_VARIABLE_SIZE])

theorem to_python_ok_inv (hdec : PyVal → PyVal → PyVal × PyVal) (data : PyDict) (r : Http)
    (h : Http.to_python hdec data = Except.ok r) :
    ∃ m, parseMethod data = Except.ok m ∧ r = assembleOk hdec data m := by
  simp only [Http.to_python] at h
  by_cases hs : schemaValid data = false
  · rw [if_pos hs] at h
    exact absurd h (by simp)
  · rw [if_neg hs] at h
    cases hp : parseMethod data with
    | error e => rw [hp] at h; exact absurd h (by simp)
    | ok m =>
      rw [hp] at h
      simp only [Except.ok.injEq] at h
      exact ⟨m, rfl, h.symm⟩

/-- C1: for every raw input mapping, `Http.to_python` either raises a
validation error or returns a record in which every bounded field is
within its configured maximum: the query string fits 4096 size units, the
fragment 1024, the body the configured maximum HTTP body size, and
headers, cookies and env are bounded by the default pair/dict item and
value bounds. -/
theorem to_python_bounded (hdec : PyVal → PyVal → PyVal × PyVal) (data : PyDict) (r : Http)
    (h : Http.to_python hdec data = Except.ok r) :
    pySizeP r.query_string ≤ 4096 ∧ pySize r.fragment ≤ 1024
      ∧ pySize r.data ≤ SENTRY_MAX_HTTP_BODY_SIZE
      ∧ r.headers.length ≤ SENTRY_MAX_DICTIONARY_ITEMS
      ∧ (∀ kv ∈ r.headers, kv.2.length ≤ SENTRY_MAX_VARIABLE_SIZE)
      ∧ r.cookies.length ≤ SENTRY_MAX_DICTIONARY_ITEMS
      ∧ (∀ kv ∈ r.cookies, pySize kv.2 ≤ SENTRY_MAX_VARIABLE_SIZE)
      ∧ r.env.length ≤ SENTRY_MAX_DICTIONARY_ITEMS
      ∧ (∀ kv ∈ r.env, pySize kv.2 ≤ SENTRY_MAX_VARIABLE_SIZE) := by
  obtain ⟨m, hm, rfl⟩ := to_python_ok_inv hdec data r h
  refine ⟨?_, ?_, ?_, ?_, ?_, ?_, ?_, ?_, ?_⟩
  · simpa only [assembleOk] using pySizeP_trimPairsB _ 4096
  · simpa only [assembleOk] using pySize_trim _ 1024 (by norm_num)
  · simpa only [assembleOk] using pySize_body_bound _
  · simpa only [assembleOk] using (trim_pairs_h_bounds _).1
  · simpa only [assembleOk] using (trim_pairs_h_bounds _).2
  · simpa only [assembleOk] using (trim_pairs_c_bounds _).1
  · simpa only [assembleOk] using (trim_pairs_c_bounds _).2
  · simpa only [assembleOk] using (trim_dict_bounds _).1
  · simpa only [assembleOk] using (trim_dict_bounds _).2

theorem to_python_bounded_witness :
    Http.to_python hdecId c1data = Except.ok c1rec
      ∧ (pySizeP c1rec.query_string ≤ 4096 ∧ pySize c1rec.fragment ≤ 1024
          ∧ pySize c1rec.data ≤ SENTRY_MAX_HTTP_BODY_SIZE
          ∧ c1rec.headers.length ≤ SENTRY_MAX_DICTIONARY_ITEMS
          ∧ (∀ kv ∈ c1rec.headers, kv.2.length ≤ SENTRY_MAX_VARIABLE_SIZE)
          ∧ c1rec.cookies.length ≤ SENTRY_MAX_DICTIONARY_ITEMS
          ∧ (∀ kv ∈ c1rec.cookies, pySize kv.2 ≤ SENTRY_MAX_VARIABLE_SIZE)
          ∧ c1rec.env.length ≤ SENTRY_MAX_DICTIONARY_ITEMS
          ∧ (∀ kv ∈ c1rec.env, pySize kv.2 ≤ SENTRY_MAX_VARIABLE_SIZE)) :=
  ⟨rfl, to_python_bounded hdecId c1data c1rec rfl⟩

/-- C2: `Http.to_python` raises exactly when schema validation fails or a
truthy `method` value uppercases to something that is neither `GET` nor
`POST` and fails `http_method_re`; in every other case it returns a
record (no partial record exists on the error path of the `Except`). -/
theorem to_python_rejects_iff (hdec : PyVal → PyVal → PyVal × PyVal) (data : PyDict) :
    (∃ e, Http.to_python hdec data = Except.error e)
      ↔ (schemaValid data = false ∨ methodRejects (dget data "method") = true) := by
  simp only [Http.to_python]
  by_cases hs : schemaValid data = false
  · simp [hs]
  · rw [if_neg hs]
    have hsv : schemaValid data = true := by
      cases hq : schemaValid data
      · exact absurd hq hs
      · rfl
    have hmo : methodOk (dget data "method") = true := by
      have h2 := hsv
      simp only [schemaValid, Bool.and_eq_true] at h2
      exact h2.1.1.1
    cases hm : dget data "method" with
    | str s =>
      simp only [parseMethod, hm]
      by_cases ht : pyTruthy (PyVal.str s) = true
      · rw [if_pos ht]
        by_cases hw : (pyUpper s == "GET" || pyUpper s == "POST") = true
        · simp [hw, methodRejects, ht, hs]
        · by_cases hr : http_method_re_match (pyUpper s) = true
          · simp [hw, hr, methodRejects, ht, hs, Bool.not_eq_true _ ▸ hw]
          · simp only [Bool.not_eq_true] at hw hr
            simp [hw, hr, methodRejects, ht, hs]
      · simp only [Bool.not_eq_true] at ht
        simp [ht, methodRejects, hs]
    | none => simp [parseMethod, hm, methodRejects, hs, pyTruthy]
    | bool b => rw [hm] at hmo; simp [methodOk] at hmo
    | int n => rw [hm] at hmo; simp [methodOk] at hmo
    | bytes b => rw [hm] at hmo; simp [methodOk] at hmo
    | list xs => rw [hm] at hmo; simp [methodOk] at hmo
    | dict kvs => rw [hm] at hmo; simp [methodOk] at hmo

/-- C3: for the input `{url: "http://h/p?a=1#frag"}` (no explicit
query_string or fragment), the record's url is `"http://h/p"`, its query
string is `[("a", "1")]` and its fragment is `"frag"`, whatever the
heuristic body decoder does. -/
theorem to_python_url_roundtrip (hdec : PyVal → PyVal → PyVal × PyVal) :
    Except.map Http.url (Http.to_python hdec [("url", PyVal.str "http://h/p?a=1#frag")])
        = Except.ok (some "http://h/p")
      ∧ Except.map Http.query_string (Http.to_python hdec [("url", PyVal.str "http://h/p?a=1#frag")])
        = Except.ok [(PyVal.str "a", PyVal.str "1")]
      ∧ Except.map Http.fragment (Http.to_python hdec [("url", PyVal.str "http://h/p?a=1#frag")])
        = Except.ok (PyVal.str "frag") :=
  ⟨rfl, rfl, rfl⟩

/-- C4: headers `[["Cookie","a=1"], ["Content-Type","text/html"]]` with no
explicit cookies yield cookies `[("a","1")]` and headers
`[("Content-Type","text/html")]`; with explicit cookies (`"x=2"`) the
cookie header is ignored and only diverted out of the headers list. -/
theorem to_python_cookie_extraction (hdec : PyVal → PyVal → PyVal × PyVal) :
    Except.map Http.cookies (Http.to_python hdec
        [("headers", PyVal.list [PyVal.list [PyVal.str "Cookie", PyVal.str "a=1"],
          PyVal.list [PyVal.str "Content-Type", PyVal.str "text/html"]])])
      = Except.ok [("a", PyVal.str "1")]
    ∧ Except.map Http.headers (Http.to_python hdec
        [("headers", PyVal.list [PyVal.list [PyVal.str "Cookie", PyVal.str "a=1"],
          PyVal.list [PyVal.str "Content-Type", PyVal.str "text/html"]])])
      = Except.ok [("Content-Type", "text/html")]
    ∧ Except.map Http.cookies (Http.to_python hdec
        [("cookies", PyVal.str "x=2"),
         ("headers", PyVal.list [PyVal.list [PyVal.str "Cookie", PyVal.str "a=1"],
          PyVal.list [PyVal.str "Content-Type", PyVal.str "text/html"]])])
      = Except.ok [("x", PyVal.str "2")]
    ∧ Except.map Http.headers (Http.to_python hdec
        [("cookies", PyVal.str "x=2"),
         ("headers", PyVal.list [PyVal.list [PyVal.str "Cookie", PyVal.str "a=1"],
          PyVal.list [PyVal.str "Content-Type", PyVal.str "text/html"]])])
      = Except.ok [("Content-Type", "text/html")] :=
  ⟨rfl, rfl, rfl, rfl⟩

/-- C9: `fix_broken_encoding` is idempotent. -/
theorem fix_broken_encoding_idem (v : PyVal) :
    fix_broken_encoding (fix_broken_encoding v) = fix_broken_encoding v := by
  cases v with
  | str s => simp [fix_broken_encoding, fixStr_eq]
  | bytes b => simp [fix_broken_encoding, fixStr_eq]
  | none => rfl
  | bool b => rfl
  | int n => rfl
  | list xs => rfl
  | dict kvs => rfl

/-- C5: the heuristic body decoder is invoked iff the input has no
`inferred_content_type` key and the body is not a mapping.  When it is not
invoked the result does not depend on the decoder at all, the supplied
inferred content type is kept verbatim and the body is only trimmed and
encoding-repaired; when it is invoked, body and inferred content type are
exactly the decoder's outputs (trimmed and repaired). -/
theorem heuristic_decode_inv (hdec hdec2 : PyVal → PyVal → PyVal × PyVal) (data : PyDict)
    (r : Http) :
    ((dhas data "inferred_content_type" = true ∨ isDictV (dget data "data") = true) →
        Http.to_python hdec data = Http.to_python hdec2 data)
      ∧ (dhas data "inferred_content_type" = true → Http.to_python hdec data = Except.ok r →
          r.inferred_content_type = dget data "inferred_content_type"
            ∧ r.data = fix_broken_encoding (trimBody (dget data "data")))
      ∧ (dhas data "inferred_content_type" = false → isDictV (dget data "data") = false →
          Http.to_python hdec data = Except.ok r →
          r.data = fix_broken_encoding (trimBody
              (hdec (dget data "data") (optStr (contentTypeOf (resolveHeaders data).1))).1)
            ∧ r.inferred_content_type
              = (hdec (dget data "data") (optStr (contentTypeOf (resolveHeaders data).1))).2) := by
  refine ⟨?_, ?_, ?_⟩
  · intro hcase
    have hc : (!dhas data "inferred_content_type" && !isDictV (dget data "data")) = false := by
      rcases hcase with h | h
      · simp [h]
      · simp [h]
    have ha : ∀ m, assembleOk hdec data m = assembleOk hdec2 data m := by
      intro m
      simp [assembleOk, hc]
    simp only [Http.to_python]
    cases parseMethod data <;> simp [ha]
  · intro hinf heq
    obtain ⟨m, hm, rfl⟩ := to_python_ok_inv hdec data r heq
    have hc : (!dhas data "inferred_content_type" && !isDictV (dget data "data")) = false := by
      simp [hinf]
    constructor
    · simp [assembleOk, hc, hinf]
    · simp [assembleOk, hc]
  · intro hninf hndict heq
    obtain ⟨m, hm, rfl⟩ := to_python_ok_inv hdec data r heq
    have hc : (!dhas data "inferred_content_type" && !isDictV (dget data "data")) = true := by
      simp [hninf, hndict]
    constructor
    · simp [assembleOk, hc]
    · simp [assembleOk, hc]

theorem heuristic_decode_inv_witness :
    dhas c5data "inferred_content_type" = true
      ∧ Http.to_python hdecA c5data = Except.ok c5rec
      ∧ Http.to_python hdecA c5data = Http.to_python hdecB c5data
      ∧ c5rec.inferred_content_type = dget c5data "inferred_content_type"
      ∧ c5rec.data = fix_broken_encoding (trimBody (dget c5data "data")) :=
  ⟨rfl, rfl, (heuristic_decode_inv hdecA hdecB c5data c5rec).1 (Or.inl rfl),
    ((heuristic_decode_inv hdecA hdecB c5data c5rec).2.1 rfl rfl).1,
    ((heuristic_decode_inv hdecA hdecB c5data c5rec).2.1 rfl rfl).2⟩

theorem lookup_cons_pair (k k2 : String) (v : PyVal) (l : PyDict) :
    List.lookup k ((k2, v) :: l) = if k == k2 then some v else List.lookup k l := by
  cases h : k == k2 <;> simp [List.lookup, h]

theorem lookup_prune_cons (k k2 : String) (v : PyVal) (l : PyDict) :
    List.lookup k (prune_empty_keys ((k2, v) :: l))
      = if isEmptyVal v = true then List.lookup k (prune_empty_keys l)
        else if k == k2 then some v else List.lookup k (prune_empty_keys l) := by
  simp only [prune_empty_keys, List.filter_cons]
  cases hv : isEmptyVal v
  · simp [lookup_cons_pair, prune_empty_keys]
  · simp [prune_empty_keys]

theorem lookup_prune_ne (k k2 : String) (v : PyVal) (l : PyDict) (h : (k == k2) = false) :
    List.lookup k (prune_empty_keys ((k2, v) :: l)) = List.lookup k (prune_empty_keys l) := by
  rw [lookup_prune_cons]
  cases hv : isEmptyVal v <;> simp [h]

theorem lookup_prune_self (k : String) (v : PyVal) (l : PyDict) :
    List.lookup k (prune_empty_keys ((k, v) :: l))
      = if isEmptyVal v = true then List.lookup k (prune_empty_keys l) else some v := by
  rw [lookup_prune_cons]
  cases hv : isEmptyVal v <;> simp

/-- C6: `to_json` never emits an empty value, and each of the nine fields
is present exactly when its serialized value is non-empty (absent values,
empty strings, empty lists and empty mappings are pruned). -/
theorem to_json_prunes_empty (r : Http) :
    (∀ kv ∈ Http.to_json r, isEmptyVal kv.2 = false)
      ∧ List.lookup "method" (Http.to_json r)
        = (if isEmptyVal (optStr r.method) = true then Option.none else some (optStr r.method))
      ∧ List.lookup "url" (Http.to_json r)
        = (if isEmptyVal (optStr r.url) = true then Option.none else some (optStr r.url))
      ∧ List.lookup "query_string" (Http.to_json r)
        = (if isEmptyVal (orNone (.list (r.query_string.map fun kv => .list [kv.1, kv.2]))) = true
           then Option.none
           else some (orNone (.list (r.query_string.map fun kv => .list [kv.1, kv.2]))))
      ∧ List.lookup "fragment" (Http.to_json r)
        = (if isEmptyVal (orNone r.fragment) = true then Option.none else some (orNone r.fragment))
      ∧ List.lookup "cookies" (Http.to_json r)
        = (if isEmptyVal (orNone (.list (r.cookies.map fun kv => .list [.str kv.1, kv.2]))) = true
           then Option.none
           else some (orNone (.list (r.cookies.map fun kv => .list [.str kv.1, kv.2]))))
      ∧ List.lookup "headers" (Http.to_json r)
        = (if isEmptyVal (orNone (.list (r.headers.map fun kv => .list [.str kv.1, .str kv.2])))
            = true
           then Option.none
           else some (orNone (.list (r.headers.map fun kv => .list [.str kv.1, .str kv.2]))))
      ∧ List.lookup "data" (Http.to_json r)
        = (if isEmptyVal r.data = true then Option.none else some r.data)
      ∧ List.lookup "env" (Http.to_json r)
        = (if isEmptyVal (orNone (.dict r.env)) = true then Option.none
           else some (orNone (.dict r.env)))
      ∧ List.lookup "inferred_content_type" (Http.to_json r)
        = (if isEmptyVal r.inferred_content_type = true then Option.none
           else some r.inferred_content_type) := by
  refine ⟨?_, ?_, ?_, ?_, ?_, ?_, ?_, ?_, ?_, ?_⟩
  · intro kv hkv
    simp only [Http.to_json, prune_empty_keys, List.mem_filter, Bool.not_eq_true'] at hkv
    exact hkv.2
  · simp only [Http.to_json]
    rw [lookup_prune_self, lookup_prune_ne _ _ _ _ (by rfl), lookup_prune_ne _ _ _ _ (by rfl),
      lookup_prune_ne _ _ _ _ (by rfl), lookup_prune_ne _ _ _ _ (by rfl),
      lookup_prune_ne _ _ _ _ (by rfl), lookup_prune_ne _ _ _ _ (by rfl),
      lookup_prune_ne _ _ _ _ (by rfl), lookup_prune_ne _ _ _ _ (by rfl)]
    rfl
  · simp only [Http.to_json]
    rw [lookup_prune_ne _ _ _ _ (by rfl), lookup_prune_self, lookup_prune_ne _ _ _ _ (by rfl),
      lookup_prune_ne _ _ _ _ (by rfl), lookup_prune_ne _ _ _ _ (by rfl),
      lookup_prune_ne _ _ _ _ (by rfl), lookup_prune_ne _ _ _ _ (by rfl),
      lookup_prune_ne _ _ _ _ (by rfl), lookup_prune_ne _ _ _ _ (by rfl)]
    rfl
  · simp only [Http.to_json]
    rw [lookup_prune_ne _ _ _ _ (by rfl), lookup_prune_ne _ _ _ _ (by rfl), lookup_prune_self,
      lookup_prune_ne _ _ _ _ (by rfl), lookup_prune_ne _ _ _ _ (by rfl),
      lookup_prune_ne _ _ _ _ (by rfl), lookup_prune_ne _ _ _ _ (by rfl),
      lookup_prune_ne _ _ _ _ (by rfl), lookup_prune_ne _ _ _ _ (by rfl)]
    rfl
  · simp only [Http.to_json]
    rw [lookup_prune_ne _ _ _ _ (by rfl), lookup_prune_ne _ _ _ _ (by rfl),
      lookup_prune_ne _ _ _ _ (by rfl), lookup_prune_self, lookup_prune_ne _ _ _ _ (by rfl),
      lookup_prune_ne _ _ _ _ (by rfl), lookup_prune_ne _ _ _ _ (by rfl),
      lookup_prune_ne _ _ _ _ (by rfl), lookup_prune_ne _ _ _ _ (by rfl)]
    rfl
  · simp only [Http.to_json]
    rw [lookup_prune_ne _ _ _ _ (by rfl), lookup_prune_ne _ _ _ _ (by rfl),
      lookup_prune_ne _ _ _ _ (by rfl), lookup_prune_ne _ _ _ _ (by rfl), lookup_prune_self,
      lookup_prune_ne _ _ _ _ (by rfl), lookup_prune_ne _ _ _ _ (by rfl),
      lookup_prune_ne _ _ _ _ (by rfl), lookup_prune_ne _ _ _ _ (by rfl)]
    rfl
  · simp only [Http.to_json]
    rw [lookup_prune_ne _ _ _ _ (by rfl), lookup_prune_ne _ _ _ _ (by rfl),
      lookup_prune_ne _ _ _ _ (by rfl), lookup_prune_ne _ _ _ _ (by rfl),
      lookup_prune_ne _ _ _ _ (by rfl), lookup_prune_self, lookup_prune_ne _ _ _ _ (by rfl),
      lookup_prune_ne _ _ _ _ (by rfl), lookup_prune_ne _ _ _ _ (by rfl)]
    rfl
  · simp only [Http.to_json]
    rw [lookup_prune_ne _ _ _ _ (by rfl), lookup_prune_ne _ _ _ _ (by rfl),
      lookup_prune_ne _ _ _ _ (by rfl), lookup_prune_ne _ _ _ _ (by rfl),
      lookup_prune_ne _ _ _ _ (by rfl), lookup_prune_ne _ _ _ _ (by rfl), lookup_prune_self,
      lookup_prune_ne _ _ _ _ (by rfl), lookup_prune_ne _ _ _ _ (by rfl)]
    rfl
  · simp only [Http.to_json]
    rw [lookup_prune_ne _ _ _ _ (by rfl), lookup_prune_ne _ _ _ _ (by rfl),
      lookup_prune_ne _ _ _ _ (by rfl), lookup_prune_ne _ _ _ _ (by rfl),
      lookup_prune_ne _ _ _ _ (by rfl), lookup_prune_ne _ _ _ _ (by rfl),
      lookup_prune_ne _ _ _ _ (by rfl), lookup_prune_self, lookup_prune_ne _ _ _ _ (by rfl)]
    rfl
  · simp only [Http.to_json]
    rw [lookup_prune_ne _ _ _ _ (by rfl), lookup_prune_ne _ _ _ _ (by rfl),
      lookup_prune_ne _ _ _ _ (by rfl), lookup_prune_ne _ _ _ _ (by rfl),
      lookup_prune_ne _ _ _ _ (by rfl), lookup_prune_ne _ _ _ _ (by rfl),
      lookup_prune_ne _ _ _ _ (by rfl), lookup_prune_ne _ _ _ _ (by rfl), lookup_prune_self]
    rfl

/-- C7 counterexample: with no url supplied the record's url is `None`
(the unchanged null path returned by `urlunsplit`), not the empty
string. -/
theorem to_python_no_url_counterexample :
    Except.map Http.url (Http.to_python hdecId []) = Except.ok Option.none
      ∧ Except.map Http.url (Http.to_python hdecId []) ≠ Except.ok (some "") := by
  constructor
  · rfl
  · intro h
    have h2 : (Option.none : Option String) = some "" := Except.ok.inj h
    exact Option.noConfusion h2

/-- C7 (amended): when the input has no truthy url, all five split
components are null and the record's url is null (`None`), and absent
query string and fragment inputs leave those fields empty. -/
theorem to_python_no_url (hdec : PyVal → PyVal → PyVal × PyVal) (data : PyDict) (r : Http)
    (h : Http.to_python hdec data = Except.ok r)
    (hurl : pyTruthy (dget data "url") = false) :
    resolveUrl data = Option.none
      ∧ r.url = Option.none
      ∧ (pyTruthy (dget data "query_string") = false → r.query_string = [])
      ∧ (pyTruthy (dget data "fragment") = false → r.fragment = PyVal.none) := by
  obtain ⟨m, hm, rfl⟩ := to_python_ok_inv hdec data r h
  have hre : resolveUrl data = Option.none := by simp [resolveUrl, hurl]
  refine ⟨hre, ?_, ?_, ?_⟩
  · simp [assembleOk, hre, urlunsplit, optSTruthy]
  · intro hq
    have h1 : resolveQS data (Option.map (fun c => c.2.2.2.1) (resolveUrl data)) = [] := by
      rw [hre]
      simp only [Option.map_none', resolveQS, hq, optStr]
      rfl
    simp only [assembleOk, h1]
    rfl
  · intro hf
    have h1 : resolveFragment data (Option.map (fun c => c.2.2.2.2) (resolveUrl data))
        = PyVal.none := by
      rw [hre]
      simp only [Option.map_none', resolveFragment, hf, optStr]
      rfl
    simp only [assembleOk, h1]
    rfl

theorem to_python_no_url_witness :
    Http.to_python hdecId [] = Except.ok c7rec
      ∧ pyTruthy (dget [] "url") = false
      ∧ (resolveUrl [] = Option.none ∧ c7rec.url = Option.none
          ∧ (pyTruthy (dget [] "query_string") = false → c7rec.query_string = [])
          ∧ (pyTruthy (dget [] "fragment") = false → c7rec.fragment = PyVal.none)) :=
  ⟨rfl, rfl, to_python_no_url hdecId [] c7rec rfl rfl⟩

/-- C8: a url ending in the horizontal-ellipsis glyph U+2026 has that
final character replaced by the three ASCII dots `"..."` — the repaired
string is exactly two characters longer — and it is this repaired string
that is split into URL components. -/
theorem to_python_ellipsis_repair (u : String) (h : pyEndsWithEllipsis u = true) :
    repairEllipsis u = (⟨u.data.dropLast⟩ : String) ++ "..."
      ∧ ((⟨u.data.dropLast⟩ : String) ++ "...").length = u.length + 2
      ∧ resolveUrl [("url", PyVal.str u)]
        = some (urlsplit ((⟨u.data.dropLast⟩ : String) ++ "...")) := by
  have hne : u.data ≠ [] := by
    intro he
    simp [pyEndsWithEllipsis, he] at h
  have hr : repairEllipsis u = (⟨u.data.dropLast⟩ : String) ++ "..." := by
    simp only [repairEllipsis, h, if_true]
    rfl
  refine ⟨hr, ?_, ?_⟩
  · rw [String.length_append]
    have h3 : ("..." : String).length = 3 := rfl
    have h4 : ((⟨u.data.dropLast⟩ : String)).length = u.data.length - 1 := by
      show u.data.dropLast.length = u.data.length - 1
      simp [List.length_dropLast]
    have h5 : u.length = u.data.length := rfl
    have h6 : 1 ≤ u.data.length := by
      cases hd : u.data with
      | nil => exact absurd hd hne
      | cons a l => simp
    rw [h3, h4, h5]
    omega
  · have ht : pyTruthy (dget [("url", PyVal.str u)] "url") = true := by
      have hd : dget [("url", PyVal.str u)] "url" = PyVal.str u := rfl
      rw [hd]
      simp [pyTruthy, List.isEmpty_iff, hne]
    simp only [resolveUrl, ht, if_true]
    have hu : to_unicode (dget [("url", PyVal.str u)] "url") = u := rfl
    rw [hu, hr]

theorem to_python_ellipsis_repair_witness :
    pyEndsWithEllipsis "http://x…" = true
      ∧ (repairEllipsis "http://x…" = (⟨("http://x…" : String).data.dropLast⟩ : String) ++ "..."
          ∧ ((⟨("http://x…" : String).data.dropLast⟩ : String) ++ "...").length
            = ("http://x…" : String).length + 2
          ∧ resolveUrl [("url", PyVal.str "http://x…")]
            = some (urlsplit ((⟨("http://x…" : String).data.dropLast⟩ : String) ++ "..."))) :=
  ⟨rfl, to_python_ellipsis_repair "http://x…" rfl⟩

/-- C10: a truthy string method whose uppercased form passes the
whitelist or the regex is accepted, and the stored method is the
uppercased input. -/
theorem to_python_method_upper (hdec : PyVal → PyVal → PyVal × PyVal) (data : PyDict) (s : String)
    (hm : dget data "method" = PyVal.str s) (ht : pyTruthy (PyVal.str s) = true)
    (hs : schemaValid data = true)
    (hok : pyUpper s = "GET" ∨ pyUpper s = "POST" ∨ http_method_re_match (pyUpper s) = true) :
    Except.map Http.method (Http.to_python hdec data) = Except.ok (some (pyUpper s)) := by
  have hp : parseMethod data = Except.ok (some (pyUpper s)) := by
    simp only [parseMethod, hm, ht, if_true]
    by_cases hw : (pyUpper s == "GET" || pyUpper s == "POST") = true
    · simp [hw]
    · rcases hok with h1 | h1 | h1
      · exact absurd (by simp [h1]) hw
      · exact absurd (by simp [h1]) hw
      · simp only [Bool.not_eq_true] at hw
        simp [hw, h1]
  simp only [Http.to_python, hs]
  rw [if_neg (by simp [hs]), hp]
  rfl

theorem to_python_method_upper_witness :
    dget [("method", PyVal.str "get")] "method" = PyVal.str "get"
      ∧ pyTruthy (PyVal.str "get") = true
      ∧ schemaValid [("method", PyVal.str "get")] = true
      ∧ pyUpper "get" = "GET"
      ∧ Except.map Http.method (Http.to_python hdecId [("method", PyVal.str "get")])
        = Except.ok (some (pyUpper "get")) :=
  ⟨rfl, rfl, rfl, rfl,
    to_python_method_upper hdecId [("method", PyVal.str "get")] "get" rfl rfl rfl
      (Or.inl rfl)⟩
